import Mathlib

/-!
Verification of the routelit client-side synchronization engine
(src/client/src/core/manager.tsx, src/client/src/core/server-api.ts)
against its natural-language specification.

The embedding translates the TypeScript source into Lean:
component trees become a nested inductive, the mutable `RouteLitManager`
becomes explicit state passing over a chain of fragment frames, and the
asynchronous wire client becomes a function parameterized by the network
outcome.  The action applicator module (`actions.ts`) is referenced by
the managers but is not present in the source tree, so it is modelled
from the specification where noted.
-/

set_option autoImplicit false

namespace RouteLit

/-- Values carried in component `props` maps and event payloads
(a small stand-in for the TypeScript `any`). -/
inductive Val where
  | vStr (s : String)
  | vNat (n : Nat)
  | vBool (b : Bool)
deriving DecidableEq, Repr

/-- The `RouteLitComponent` node from `types.d.ts`:
`key`, `name`, a `props` map, and an optional ordered `children` list. -/
inductive RouteLitComponent where
  | mk (key : String) (name : String) (props : List (String × Val))
      (children : Option (List RouteLitComponent))
deriving Repr

def RouteLitComponent.key : RouteLitComponent → String
  | .mk k _ _ _ => k

def RouteLitComponent.name : RouteLitComponent → String
  | .mk _ n _ _ => n

def RouteLitComponent.props : RouteLitComponent → List (String × Val)
  | .mk _ _ p _ => p

def RouteLitComponent.children : RouteLitComponent → Option (List RouteLitComponent)
  | .mk _ _ _ c => c

/-- Replace a node's children (used when rebuilding a tree along a path). -/
def RouteLitComponent.withChildren (c : RouteLitComponent)
    (cs : List RouteLitComponent) : RouteLitComponent :=
  .mk c.key c.name c.props (some cs)

/-- Replace a node's props. -/
def RouteLitComponent.withProps (c : RouteLitComponent)
    (p : List (String × Val)) : RouteLitComponent :=
  .mk c.key c.name p c.children

/-- The tree mutation instructions of `types.d.ts`:
`add` carries a new node, `remove` deletes, `update` shallow-merges props. -/
inductive Action where
  | add (address : List Nat) (element : RouteLitComponent)
  | remove (address : List Nat)
  | update (address : List Nat) (props : List (String × Val))
deriving Repr

/-- The address carried by an action. -/
def Action.address : Action → List Nat
  | .add a _ => a
  | .remove a => a
  | .update a _ => a

/-- Rewrite the address carried by an action, leaving its payload intact. -/
def Action.withAddress : Action → List Nat → Action
  | .add _ e, a => .add a e
  | .remove _, a => .remove a
  | .update _ p, a => .update a p

/-- The scope of an `ActionsResponse`: the fragment that requested it
(`self`) or the application root (`app`). -/
inductive Target where
  | self
  | app
deriving DecidableEq, Repr

/-- The server's reply to one event: an ordered action list plus a scope. -/
structure ActionsResponse where
  actions : List Action
  target : Target
deriving Repr

/-- The error surfaced when an action's address fails to resolve. -/
inductive AddressResolutionError where
  | err
deriving DecidableEq, Repr

/-- Insert `e` at position `k` of `l` (JavaScript `splice(k, 0, e)`). -/
def insertAt (l : List RouteLitComponent) (k : Nat) (e : RouteLitComponent) :
    List RouteLitComponent :=
  l.take k ++ e :: l.drop k

/-- Delete the element at position `k` of `l` (JavaScript `splice(k, 1)`). -/
def removeAt (l : List RouteLitComponent) (k : Nat) : List RouteLitComponent :=
  l.take k ++ l.drop (k + 1)

/-- Modelled from the spec: the shallow props merge of `actions.ts`
(not in the source tree), "props = shallow merge of old props and the
incoming partial map (new keys override, keys not present in the partial
map are preserved, no deep merge)". -/
def mergeProps (old incoming : List (String × Val)) : List (String × Val) :=
  (old.map fun kv =>
    match incoming.lookup kv.1 with
    | some v => (kv.1, v)
    | none => kv) ++
  incoming.filter (fun kv => (old.lookup kv.1).isNone)

/-- Split a list into its leading part and last element. -/
def splitLast : List Nat → Option (List Nat × Nat)
  | [] => none
  | [k] => some ([], k)
  | i :: rest =>
    match splitLast rest with
    | some (init, k) => some (i :: init, k)
    | none => none

/-- Modelled from the spec: address resolution of `actions.ts` (not in the
source tree) down to the parent list an action's final index lives in;
"Address resolution alternates between index into a node list and index
into `.children` of the node just selected", failing "if any step indexes
past the end of a list or dereferences a leaf node's absent `children`".
`modifyListAt tree path f` rebuilds the tree with the list at `path`
replaced by `f` of it, sharing all untouched structure. -/
def modifyListAt (tree : List RouteLitComponent) (path : List Nat)
    (f : List RouteLitComponent →
      Except AddressResolutionError (List RouteLitComponent)) :
    Except AddressResolutionError (List RouteLitComponent) :=
  match path with
  | [] => f tree
  | i :: rest =>
    match tree.get? i with
    | none => .error .err
    | some c =>
      match c.children with
      | none => .error .err
      | some cs =>
        (modifyListAt cs rest f).map fun cs' => tree.set i (c.withChildren cs')

/-- Modelled from the spec: one step of the Action Applicator of
`actions.ts` (not in the source tree), following §4.1 of the spec:
`add` splices the new node into the resolved parent list at the final
index (append allowed when the index equals the length), `remove` splices
out the node at the final index, `update` shallow-merges the partial
props map into the node at the final index. -/
def applyAction (tree : List RouteLitComponent) (a : Action) :
    Except AddressResolutionError (List RouteLitComponent) :=
  match a with
  | .add addr e =>
    match splitLast addr with
    | none => .error .err
    | some (init, k) =>
      modifyListAt tree init fun l =>
        if k ≤ l.length then .ok (insertAt l k e) else .error .err
  | .remove addr =>
    match splitLast addr with
    | none => .error .err
    | some (init, k) =>
      modifyListAt tree init fun l =>
        if k < l.length then .ok (removeAt l k) else .error .err
  | .update addr p =>
    match splitLast addr with
    | none => .error .err
    | some (init, k) =>
      modifyListAt tree init fun l =>
        match l.get? k with
        | none => .error .err
        | some c => .ok (l.set k (c.withProps (mergeProps c.props p)))

/-- Modelled from the spec: the Action Applicator `applyActions` of
`actions.ts` (not in the source tree): "Processes actions in the order
given — later actions' addresses are expressed against the tree state
that exists after earlier actions in the same batch have been applied";
an address failure aborts the batch. -/
def applyActions (tree : List RouteLitComponent) (actions : List Action) :
    Except AddressResolutionError (List RouteLitComponent) :=
  actions.foldlM applyAction tree

/-- The keys of a root list, an injective-enough shadow of a tree used to
discriminate concrete trees without decidable equality on nested nodes. -/
def keysOf (l : List RouteLitComponent) : List String :=
  l.map RouteLitComponent.key

/-- Modelled from the spec: `prependAddressToActions` of `actions.ts`
(not in the source tree); the spec says "Prefixing concatenates this
fragment's address in front of each action's address". -/
def prependAddressToActions (resp : ActionsResponse) (address : List Nat) :
    ActionsResponse :=
  { actions := resp.actions.map fun a => a.withAddress (address ++ a.address)
    target := resp.target }

/-- The observable outcome of the fragment branch of
`RouteLitManager.applyActions` (manager.tsx lines 134-142): which
response is handed to `parentManager.applyActions`, with which
`shouldNotify` flag, and whether this fragment notifies its own
subscribers afterwards. -/
structure FragmentStep where
  toParent : ActionsResponse
  parentShouldNotify : Bool
  selfNotifies : Bool
deriving Repr

/-- The fragment branch of `RouteLitManager.applyActions`:
`shouldNotifyParent = (target === "app")`; the response is forwarded
unchanged when app-scoped, otherwise with this fragment's address
prepended; local subscribers are notified after the parent call exactly
when `shouldNotify && !shouldNotifyParent`. -/
def fragmentApplyActions (address : List Nat) (resp : ActionsResponse)
    (shouldNotify : Bool) : FragmentStep :=
  let shouldNotifyParent := resp.target = Target.app
  let actionsWithAddress :=
    if shouldNotifyParent then resp else prependAddressToActions resp address
  { toParent := actionsWithAddress
    parentShouldNotify := shouldNotifyParent
    selfNotifies := shouldNotify && !shouldNotifyParent }

/-- A chain of managers: the originating manager first. A fragment
manager is a frame carrying its fixed `address` into the parent's tree;
the last manager is the root, owning the tree. `applyActionsChain frames
tree resp shouldNotify` returns the root tree after the call and the
depths (0 = the manager the response arrived at, increasing towards the
root) whose subscribers were notified, in notification order. An
applicator error propagates as the thrown exception does in the source:
no tree assignment and no notification anywhere on the chain. -/
def applyActionsChain (frames : List (List Nat))
    (tree : List RouteLitComponent) (resp : ActionsResponse)
    (shouldNotify : Bool) :
    Except AddressResolutionError (List RouteLitComponent × List Nat) :=
  match frames with
  | [] =>
    (applyActions tree resp.actions).map fun tree' =>
      (tree', if shouldNotify then [0] else [])
  | a :: rest =>
    let step := fragmentApplyActions a resp shouldNotify
    (applyActionsChain rest tree step.toParent step.parentShouldNotify).map
      fun r => (r.1, r.2.map (· + 1) ++ if step.selfNotifies then [0] else [])

/-- The errors a `getAtAddress` call can throw: a JavaScript `TypeError`
from indexing into a property of `undefined`, or the explicit
`Error("Component not found")`. -/
inductive JsError where
  | typeError
  | componentNotFound
deriving DecidableEq, Repr

/-- The accumulator of the `reduce` inside `getAtAddress`: a node list,
a single node, or JavaScript `undefined` (an out-of-range index). -/
inductive Cursor where
  | list (cs : List RouteLitComponent)
  | node (c : RouteLitComponent)
  | undef

/-- One step of the `reduce` in `RouteLitManager.getAtAddress`
(manager.tsx lines 195-201): `Array.isArray(acc) ? acc[curr] :
acc.children![curr]`. Indexing past the end yields `undefined` (carried
to the next step); reading `.children` of `undefined` or indexing into
absent children throws a `TypeError`. -/
def jsStep (acc : Cursor) (i : Nat) : Except JsError Cursor :=
  match acc with
  | .list cs =>
    .ok (match cs[i]? with | some c => .node c | none => .undef)
  | .node c =>
    match c.children with
    | some cs =>
      .ok (match cs[i]? with | some c' => .node c' | none => .undef)
    | none => .error .typeError
  | .undef => .error .typeError

/-- `RouteLitManager.getAtAddress` (manager.tsx lines 194-205): reduce
over the address, throw when the result is falsy (`undefined`), then
return the list itself or the resolved node's children. -/
def getAtAddress (tree : List RouteLitComponent) (address : List Nat) :
    Except JsError (Option (List RouteLitComponent)) := do
  let c ← address.foldlM jsStep (Cursor.list tree)
  match c with
  | .undef => .error .componentNotFound
  | .list cs => .ok (some cs)
  | .node c => .ok c.children

/-- The result of the specification's address-resolution scheme: either
a node list or a node. -/
inductive SpecRes where
  | list (cs : List RouteLitComponent)
  | node (c : RouteLitComponent)

/-- The specification's address resolution, written from its words:
"Address resolution alternates between index into a node list and index
into `.children` of the node just selected; an address of length N
requires N such steps from the root list", and it fails (`none`) exactly
when a step would produce an undefined node: an index past the end of a
list, or a step through an absent children array. -/
def specResolve : SpecRes → List Nat → Option SpecRes
  | r, [] => some r
  | .list cs, i :: rest =>
    match cs[i]? with
    | some c => specResolve (.node c) rest
    | none => none
  | .node c, i :: rest =>
    match c.children with
    | none => none
    | some cs =>
      match cs[i]? with
      | some c' => specResolve (.node c') rest
      | none => none

/-- `RouteLitManager.subscribe` (manager.tsx lines 207-212): listeners
are identified by JavaScript function identity, modelled as numbers;
subscribing pushes onto the listener array. -/
def subscribeL (listeners : List Nat) (l : Nat) : List Nat :=
  listeners ++ [l]

/-- The closure returned by `RouteLitManager.subscribe`:
`this.listeners = this.listeners.filter((x) => x !== listener)`. -/
def unsubscribeL (listeners : List Nat) (l : Nat) : List Nat :=
  listeners.filter (fun x => x ≠ l)

/-- The error thrown by `sendUIEvent` on a non-2xx response. -/
inductive NetworkError where
  | failedToSendEvent
deriving DecidableEq, Repr

/-- Read a string field out of an event `detail` payload ("" when absent,
standing for the absent-property case the source never exercises). -/
def getStrD (d : List (String × Val)) (k : String) : String :=
  match d.lookup k with
  | some (.vStr s) => s
  | _ => ""

/-- JavaScript truthiness of an optional payload field
(`event.detail.replace`, `this.fragmentId`). -/
def truthyVal : Option Val → Bool
  | some (.vStr s) => s ≠ ""
  | some (.vNat n) => n ≠ 0
  | some (.vBool b) => b
  | none => false

/-- Truthiness of the optional `fragmentId` string field. -/
def truthyId : Option String → Bool
  | some s => s ≠ ""
  | none => false

/-- Whether `e.detail.type === "navigate"`. -/
def isNavigate (detail : List (String × Val)) : Bool :=
  getStrD detail "type" = "navigate"

/-- What one call to `RouteLitManager.handleEvent` (manager.tsx lines
121-131) observably does once the wire outcome for its request is known:
the root tree afterwards, which chain depths were notified, whether the
wire client was invoked, whether `stopPropagation` ran on the originating
event, what went to the `console.error` channel, and this manager's
`lastURL` afterwards. -/
structure HandleOutcome where
  tree : List RouteLitComponent
  notified : List Nat
  wireCalled : Bool
  stoppedPropagation : Bool
  loggedErrors : List NetworkError
  lastURL : Option String
deriving Repr

/-- `RouteLitManager.handleEvent`: a navigate event on a fragment manager
returns before doing anything (no wire call, no `stopPropagation`);
otherwise a navigate event records the target URL, the event is
dispatched over the wire and propagation is stopped; the response
continuation is `applyActions` and the rejection continuation is
`console.error`. `origin` is `window.location.origin`; `wire` is the
outcome `sendEvent`'s promise settles with; an applicator exception
escapes as the `Except.error` case. -/
def handleEvent (fragmentId : Option String) (frames : List (List Nat))
    (tree : List RouteLitComponent) (lastURL : Option String)
    (origin : String) (detail : List (String × Val))
    (wire : Except NetworkError ActionsResponse) :
    Except AddressResolutionError HandleOutcome :=
  if isNavigate detail && truthyId fragmentId then
    .ok { tree := tree, notified := [], wireCalled := false
          stoppedPropagation := false, loggedErrors := [], lastURL := lastURL }
  else
    let href := getStrD detail "href"
    let lastURL' :=
      if isNavigate detail then
        some (if href.startsWith "http" then href else origin ++ href)
      else lastURL
    match wire with
    | .error e =>
      .ok { tree := tree, notified := [], wireCalled := true
            stoppedPropagation := true, loggedErrors := [e], lastURL := lastURL' }
    | .ok resp =>
      (applyActionsChain frames tree resp true).map fun r =>
        { tree := r.1, notified := r.2, wireCalled := true
          stoppedPropagation := true, loggedErrors := [], lastURL := lastURL' }

/-- The JSON body built by the wire client (server-api.ts):
`{ ui_event: { component_id, type, data }, fragment_id? }`. -/
structure UiEventBody where
  component_id : String
  type : String
  data : List (String × Val)
deriving Repr

/-- The full request body. -/
structure RequestBody where
  ui_event : UiEventBody
  fragment_id : Option String
deriving Repr

/-- The HTTP request issued by `fetch` in `sendUIEvent`. -/
structure Request where
  url : String
  method : String
  body : RequestBody
  credentialsInclude : Bool
deriving Repr

/-- The environment's answer to the `fetch`: the `ok` flag and the JSON
the body deserializes to. -/
structure FetchResponse where
  ok : Bool
  json : List Action
deriving Repr

/-- `sendUIEvent` (server-api.ts lines 20-33): POST the JSON body to
`url` with credentials included; a non-ok response throws
`Error("Failed to send server event")`, otherwise the deserialized JSON
is returned. -/
def sendUIEvent (url : String) (body : RequestBody) (res : FetchResponse) :
    Request × Except NetworkError (List Action) :=
  ({ url := url, method := "POST", body := body, credentialsInclude := true },
   if res.ok then .ok res.json else .error .failedToSendEvent)

/-- What one wire call observably does: the request it issued, the value
or error its promise settles with, and the browser history afterwards
(a stack of URLs; `pushState` appends, `replaceState` replaces the top). -/
structure WireOutcome where
  request : Request
  result : Except NetworkError (List Action)
  history : List String
deriving Repr

/-- `handleUIEvent` (server-api.ts lines 35-47): destructure
`{ id, type, ...data }` from the detail, POST to the current page URL. -/
def handleUIEvent (currentHref : String) (detail : List (String × Val))
    (fragmentId : Option String) (res : FetchResponse) (hist : List String) :
    WireOutcome :=
  let data := detail.filter fun kv => !(kv.1 = "id" || kv.1 = "type")
  let body : RequestBody :=
    { ui_event :=
        { component_id := getStrD detail "id"
          type := getStrD detail "type"
          data := data }
      fragment_id := fragmentId }
  let r := sendUIEvent currentHref body res
  { request := r.1, result := r.2, history := hist }

/-- `handleNavigate` (server-api.ts lines 49-68): destructure
`{ href, id, type, ...data }`, POST to `href` with `href` put back into
`data`; after a successful response update the browser history —
`replaceState` when the event requested a replace, else `pushState`; a
failed response propagates the error and leaves the history alone. -/
def handleNavigate (detail : List (String × Val)) (res : FetchResponse)
    (hist : List String) : WireOutcome :=
  let href := getStrD detail "href"
  let data :=
    (detail.filter fun kv => !(kv.1 = "href" || kv.1 = "id" || kv.1 = "type"))
      ++ [("href", Val.vStr href)]
  let body : RequestBody :=
    { ui_event :=
        { component_id := getStrD detail "id"
          type := getStrD detail "type"
          data := data }
      fragment_id := none }
  let r := sendUIEvent href body res
  match r.2 with
  | .error e => { request := r.1, result := .error e, history := hist }
  | .ok acts =>
    { request := r.1, result := .ok acts
      history :=
        if truthyVal (detail.lookup "replace") then hist.dropLast ++ [href]
        else hist ++ [href] }

/-- `sendEvent` (server-api.ts lines 1-9): dispatch on the event type. -/
def sendEvent (currentHref : String) (detail : List (String × Val))
    (fragmentId : Option String) (res : FetchResponse) (hist : List String) :
    WireOutcome :=
  if isNavigate detail then handleNavigate detail res hist
  else handleUIEvent currentHref detail fragmentId res hist

/-- Whether an `Except` computation succeeded. -/
def exceptOk {ε α : Type} : Except ε α → Bool
  | .ok _ => true
  | .error _ => false

/-- `toCursor` embeds a specification resolution result into the reduce
accumulator of `getAtAddress`. -/
def toCursor : SpecRes → Cursor
  | .list cs => .list cs
  | .node c => .node c

/-! Concrete fixtures used by witnesses and counterexamples. -/

/-- A leaf node with key "a". -/
def cA : RouteLitComponent := .mk "a" "button" [] none

/-- A leaf node with key "b". -/
def cB : RouteLitComponent := .mk "b" "button" [] none

/-- A leaf node with key "e". -/
def cE : RouteLitComponent := .mk "e" "button" [] none

/-- A parent node holding `cA` as its only child. -/
def cP : RouteLitComponent := .mk "p" "fragment" [] (some [cA])

/-- C1: a fragment manager's `applyActions` forwards a self-targeted
response to the parent with every action's address prefixed by the
fragment's own address, and forwards an app-targeted response with the
addresses unmodified. -/
theorem c1_fragment_address_translation (address : List Nat)
    (resp : ActionsResponse) (shouldNotify : Bool) :
    (resp.target = Target.self →
      (fragmentApplyActions address resp shouldNotify).toParent.actions
        = resp.actions.map (fun a => a.withAddress (address ++ a.address)) ∧
      (fragmentApplyActions address resp shouldNotify).toParent.target
        = resp.target) ∧
    (resp.target = Target.app →
      (fragmentApplyActions address resp shouldNotify).toParent = resp) := by
  constructor <;> intro h <;>
    simp [fragmentApplyActions, prependAddressToActions, h]

/-- C1 witness: a fragment at address `[2, 0]` receiving an `update` at
`[0]` forwards an `update` at `[2, 0, 0]` when the target is `self`, and
the very same response untouched when the target is `app`. -/
theorem c1_witness :
    (fragmentApplyActions [2, 0]
        { actions := [Action.update [0] [("x", Val.vNat 1)]]
          target := Target.self } true).toParent.actions
      = [Action.update [2, 0, 0] [("x", Val.vNat 1)]] ∧
    (fragmentApplyActions [2, 0]
        { actions := [Action.update [0] [("x", Val.vNat 1)]]
          target := Target.app } true).toParent
      = { actions := [Action.update [0] [("x", Val.vNat 1)]]
          target := Target.app } := by
  constructor
  · have h := (c1_fragment_address_translation [2, 0]
      { actions := [Action.update [0] [("x", Val.vNat 1)]]
        target := Target.self } true).1 rfl
    exact h.1.trans rfl
  · exact (c1_fragment_address_translation [2, 0]
      { actions := [Action.update [0] [("x", Val.vNat 1)]]
        target := Target.app } true).2 rfl

/-- C2 counterexample: applying `[add at [0] element E, remove at [1]]`
to the tree `[A, B]` does not yield `[E, A]`; the remove resolves
against the post-add tree `[E, A, B]`, deletes `A`, and the result is
`[E, B]`. -/
theorem c2_counterexample :
    (applyActions [cA, cB] [Action.add [0] cE, Action.remove [1]]).map keysOf
      = Except.ok ["e", "b"] ∧
    ¬ (applyActions [cA, cB] [Action.add [0] cE, Action.remove [1]]
      = Except.ok [cE, cA]) := by
  refine ⟨rfl, fun h => ?_⟩
  have h2 := congrArg (fun r => (Except.map keysOf r).toOption) h
  exact absurd h2 (by decide)

/-- C2 amended: `apply(tree, actions)` processes the actions strictly in
the order given, resolving each action's address against the
intermediate tree produced by the earlier actions of the same batch; in
particular, applying the batch `[add at [0] element E, remove at [1]]`
to the tree `[A, B]` yields `[E, B]` (the remove resolves against the
post-add tree and deletes `A`). -/
theorem c2_sequential_application (tree : List RouteLitComponent)
    (a : Action) (rest : List Action) :
    (applyActions tree (a :: rest)
      = (applyAction tree a).bind fun t => applyActions t rest) ∧
    (applyActions [cA, cB] [Action.add [0] cE, Action.remove [1]]).map keysOf
      = Except.ok ["e", "b"] := by
  constructor
  · show List.foldlM applyAction tree (a :: rest) = _
    rw [List.foldlM_cons]
    cases applyAction tree a <;> rfl
  · rfl

/-- C8 counterexample: the unsubscribe closure returned by `subscribe`
filters out every registration equal to the captured listener, so after
registering listener `7` twice a single unsubscribe leaves zero
registrations, not one. -/
theorem c8_counterexample :
    unsubscribeL (subscribeL (subscribeL [] 7) 7) 7 = [] ∧
    ¬ List.count 7 (unsubscribeL (subscribeL (subscribeL [] 7) 7) 7) = 1 := by
  decide

/-- C8 amended: the unsubscribe function returned by `subscribe(listener)`
removes every registration of that listener (other listeners'
registrations are untouched), and calling it a second time is harmless
(the second call changes nothing). -/
theorem c8_unsubscribe_removes_all (ls : List Nat) (l l' : Nat)
    (h : l' ≠ l) :
    List.count l (unsubscribeL ls l) = 0 ∧
    List.count l' (unsubscribeL ls l) = List.count l' ls ∧
    unsubscribeL (unsubscribeL ls l) l = unsubscribeL ls l := by
  refine ⟨?_, ?_, ?_⟩
  · rw [List.count_eq_zero]
    intro hm
    rw [unsubscribeL, List.mem_filter] at hm
    simp at hm
  · rw [unsubscribeL, List.count_filter]
    simp [h]
  · rw [unsubscribeL, unsubscribeL, List.filter_filter]
    simp

/-- C8 witness: with listeners `[5, 7, 5, 7]`, unsubscribing `7` removes
both of its registrations, keeps both registrations of `5`, and a second
call changes nothing. -/
theorem c8_witness :
    (5 ≠ 7) ∧
    (List.count 7 (unsubscribeL [5, 7, 5, 7] 7) = 0 ∧
     List.count 5 (unsubscribeL [5, 7, 5, 7] 7) = List.count 5 [5, 7, 5, 7] ∧
     unsubscribeL (unsubscribeL [5, 7, 5, 7] 7) 7
       = unsubscribeL [5, 7, 5, 7] 7) :=
  ⟨by decide, c8_unsubscribe_removes_all [5, 7, 5, 7] 7 5 (by decide)⟩

/-- C4: when the wire call issued by `handleEvent` fails, the tree is
unchanged, no subscriber is notified, and the error goes to the
`console.error` channel (and the wire client was indeed invoked). -/
theorem c4_fail_stationary (fragmentId : Option String)
    (frames : List (List Nat)) (tree : List RouteLitComponent)
    (lastURL : Option String) (origin : String)
    (detail : List (String × Val)) (e : NetworkError)
    (h : (isNavigate detail && truthyId fragmentId) = false) :
    Except.map (fun o => (o.tree, o.notified, o.loggedErrors, o.wireCalled))
        (handleEvent fragmentId frames tree lastURL origin detail (.error e))
      = .ok (tree, [], [e], true) := by
  rw [handleEvent, if_neg (by rw [h]; exact Bool.false_ne_true)]
  rfl

/-- C4 witness: a failed wire call for a plain click on a root manager
leaves the one-node tree in place, notifies nobody and logs the error. -/
theorem c4_witness :
    Except.map (fun o => (o.tree, o.notified, o.loggedErrors, o.wireCalled))
        (handleEvent none [] [cA] none ""
          [("id", Val.vStr "a"), ("type", Val.vStr "click")]
          (.error .failedToSendEvent))
      = .ok ([cA], [], [NetworkError.failedToSendEvent], true) :=
  c4_fail_stationary none [] [cA] none ""
    [("id", Val.vStr "a"), ("type", Val.vStr "click")]
    .failedToSendEvent (by decide)

/-- C5: a fragment manager's `handleEvent` given a navigate event
returns immediately: the wire client is not invoked, no tree changes,
no subscriber is notified, and propagation of the originating event is
not stopped. -/
theorem c5_navigation_propagation_block (fragmentId : Option String)
    (frames : List (List Nat)) (tree : List RouteLitComponent)
    (lastURL : Option String) (origin : String)
    (detail : List (String × Val))
    (wire : Except NetworkError ActionsResponse)
    (h1 : isNavigate detail = true) (h2 : truthyId fragmentId = true) :
    handleEvent fragmentId frames tree lastURL origin detail wire
      = .ok { tree := tree, notified := [], wireCalled := false
              stoppedPropagation := false, loggedErrors := []
              lastURL := lastURL } := by
  rw [handleEvent, if_pos (by simp [h1, h2])]

/-- C5 witness: a fragment manager receiving a navigate event does
nothing observable. -/
theorem c5_witness :
    handleEvent (some "frag") [[0]] [cP] (some "u") "http://h"
        [("id", Val.vStr "l"), ("type", Val.vStr "navigate"),
         ("href", Val.vStr "/next")]
        (.ok { actions := [], target := Target.self })
      = .ok { tree := [cP], notified := [], wireCalled := false
              stoppedPropagation := false, loggedErrors := []
              lastURL := some "u" } :=
  c5_navigation_propagation_block (some "frag") [[0]] [cP] (some "u")
    "http://h"
    [("id", Val.vStr "l"), ("type", Val.vStr "navigate"),
     ("href", Val.vStr "/next")]
    (.ok { actions := [], target := Target.self }) (by decide) (by decide)

/-- C9: for a non-navigate event, `sendEvent` issues a POST to the
current page URL with credentials included, whose body carries the
event's id as `component_id`, the event's type, the remaining payload
fields (with `id` and `type` removed) as `data`, and the caller's
fragment id. -/
theorem c9_ui_event_request (currentHref : String)
    (detail : List (String × Val)) (fragmentId : Option String)
    (res : FetchResponse) (hist : List String)
    (h : isNavigate detail = false) :
    (sendEvent currentHref detail fragmentId res hist).request
      = { url := currentHref, method := "POST"
          body :=
            { ui_event :=
                { component_id := getStrD detail "id"
                  type := getStrD detail "type"
                  data := detail.filter
                    (fun kv => !(kv.1 = "id" || kv.1 = "type")) }
              fragment_id := fragmentId }
          credentialsInclude := true } ∧
    (sendEvent currentHref detail fragmentId res hist).history = hist := by
  rw [sendEvent, if_neg (by rw [h]; exact Bool.false_ne_true)]
  exact ⟨rfl, rfl⟩

/-- C9 witness: a change event with a value field produces the documented
request against the current URL, with `id` and `type` stripped from
`data`. -/
theorem c9_witness :
    (sendEvent "http://h/page"
        [("id", Val.vStr "inp"), ("type", Val.vStr "change"),
         ("value", Val.vStr "v")]
        (some "frag") { ok := true, json := [] } []).request
      = { url := "http://h/page", method := "POST"
          body :=
            { ui_event :=
                { component_id := "inp", type := "change"
                  data := [("value", Val.vStr "v")] }
              fragment_id := some "frag" }
          credentialsInclude := true } ∧
    (sendEvent "http://h/page"
        [("id", Val.vStr "inp"), ("type", Val.vStr "change"),
         ("value", Val.vStr "v")]
        (some "frag") { ok := true, json := [] } []).history = [] := by
  have h := c9_ui_event_request "http://h/page"
    [("id", Val.vStr "inp"), ("type", Val.vStr "change"),
     ("value", Val.vStr "v")]
    (some "frag") { ok := true, json := [] } [] (by decide)
  exact ⟨h.1.trans rfl, h.2⟩

/-- C6: for a navigate event the wire client POSTs to the event's href
(not the current page URL); history is updated only after an ok
response — `replaceState` when the replace flag is truthy, else
`pushState`; a non-2xx response yields the generic failure and leaves
history untouched. -/
theorem c6_navigate_history (currentHref : String)
    (detail : List (String × Val)) (fragmentId : Option String)
    (res : FetchResponse) (hist : List String)
    (h : isNavigate detail = true) :
    (sendEvent currentHref detail fragmentId res hist).request.url
      = getStrD detail "href" ∧
    (sendEvent currentHref detail fragmentId res hist).request.method
      = "POST" ∧
    (res.ok = true →
      (sendEvent currentHref detail fragmentId res hist).history
        = (if truthyVal (detail.lookup "replace") then
            hist.dropLast ++ [getStrD detail "href"]
          else hist ++ [getStrD detail "href"])) ∧
    (res.ok = false →
      (sendEvent currentHref detail fragmentId res hist).result
          = .error .failedToSendEvent ∧
      (sendEvent currentHref detail fragmentId res hist).history = hist) := by
  rw [sendEvent, if_pos (by rw [h])]
  cases res with
  | mk ok json =>
    cases ok with
    | true =>
      refine ⟨rfl, rfl, fun _ => rfl, fun hf => absurd hf (by simp)⟩
    | false =>
      refine ⟨rfl, rfl, fun ht => absurd ht (by simp), fun _ => ⟨rfl, rfl⟩⟩

/-- C6 witness: a navigate to `/next` with no replace flag POSTs to
`/next` and pushes it onto the history on success; the same navigate
against a failing response errors and leaves history untouched. -/
theorem c6_witness :
    (sendEvent "http://h/page"
        [("id", Val.vStr "l"), ("type", Val.vStr "navigate"),
         ("href", Val.vStr "/next")]
        none { ok := true, json := [] } ["http://h/page"]).request.url
      = "/next" ∧
    (sendEvent "http://h/page"
        [("id", Val.vStr "l"), ("type", Val.vStr "navigate"),
         ("href", Val.vStr "/next")]
        none { ok := true, json := [] } ["http://h/page"]).history
      = ["http://h/page", "/next"] ∧
    (sendEvent "http://h/page"
        [("id", Val.vStr "l"), ("type", Val.vStr "navigate"),
         ("href", Val.vStr "/next")]
        none { ok := false, json := [] } ["http://h/page"]).result
      = .error .failedToSendEvent ∧
    (sendEvent "http://h/page"
        [("id", Val.vStr "l"), ("type", Val.vStr "navigate"),
         ("href", Val.vStr "/next")]
        none { ok := false, json := [] } ["http://h/page"]).history
      = ["http://h/page"] := by
  have hTrue := c6_navigate_history "http://h/page"
    [("id", Val.vStr "l"), ("type", Val.vStr "navigate"),
     ("href", Val.vStr "/next")]
    none { ok := true, json := [] } ["http://h/page"] (by decide)
  have hFalse := c6_navigate_history "http://h/page"
    [("id", Val.vStr "l"), ("type", Val.vStr "navigate"),
     ("href", Val.vStr "/next")]
    none { ok := false, json := [] } ["http://h/page"] (by decide)
  refine ⟨hTrue.1.trans rfl, (hTrue.2.2.1 rfl).trans rfl, ?_, ?_⟩
  · exact (hFalse.2.2.2 rfl).1
  · exact (hFalse.2.2.2 rfl).2

/-- Prefixing addresses does not change a response's target scope. -/
theorem prependAddressToActions_target (resp : ActionsResponse)
    (a : List Nat) : (prependAddressToActions resp a).target = resp.target :=
  rfl

/-- The fragment branch evaluated on a self-targeted response. -/
theorem fragmentApplyActions_self (a : List Nat) (resp : ActionsResponse)
    (shouldNotify : Bool) (h : resp.target = Target.self) :
    fragmentApplyActions a resp shouldNotify
      = { toParent := prependAddressToActions resp a
          parentShouldNotify := false, selfNotifies := shouldNotify } := by
  simp [fragmentApplyActions, h]

/-- The fragment branch evaluated on an app-targeted response. -/
theorem fragmentApplyActions_app (a : List Nat) (resp : ActionsResponse)
    (shouldNotify : Bool) (h : resp.target = Target.app) :
    fragmentApplyActions a resp shouldNotify
      = { toParent := resp, parentShouldNotify := true
          selfNotifies := false } := by
  simp [fragmentApplyActions, h]

/-- A self-targeted delegation entered with notification suppressed
notifies nobody anywhere on the chain. -/
theorem applyActionsChain_self_silent (frames : List (List Nat))
    (tree : List RouteLitComponent) (resp : ActionsResponse)
    (h : resp.target = Target.self) (tree' : List RouteLitComponent)
    (ns : List Nat)
    (hok : applyActionsChain frames tree resp false = .ok (tree', ns)) :
    ns = [] := by
  induction frames generalizing tree resp tree' ns with
  | nil =>
    rw [applyActionsChain] at hok
    cases happ : applyActions tree resp.actions with
    | ok t => rw [happ] at hok; simp [Except.map] at hok; exact hok.2
    | error e => rw [happ] at hok; simp [Except.map] at hok
  | cons a rest ih =>
    rw [applyActionsChain] at hok
    simp only [fragmentApplyActions_self a resp false h, Bool.false_and] at hok
    cases hsub : applyActionsChain rest tree (prependAddressToActions resp a)
        false with
    | error e => rw [hsub] at hok; simp [Except.map] at hok
    | ok p =>
      obtain ⟨t0, ns0⟩ := p
      rw [hsub] at hok
      simp [Except.map] at hok
      have hns0 : ns0 = [] :=
        ih tree (prependAddressToActions resp a)
          ((prependAddressToActions_target resp a).trans h) t0 ns0 hsub
      rw [← hok.2, hns0]
      rfl

/-- C10: a self-targeted response arriving at a fragment manager is
forwarded up the whole parent chain with notification suppressed: when
the delegation succeeds, the originating fragment (depth 0) is the only
manager on the chain whose subscribers are notified. -/
theorem c10_only_origin_notified (a : List Nat) (frames : List (List Nat))
    (tree : List RouteLitComponent) (resp : ActionsResponse)
    (tree' : List RouteLitComponent) (ns : List Nat)
    (h : resp.target = Target.self)
    (hok : applyActionsChain (a :: frames) tree resp true = .ok (tree', ns)) :
    ns = [0] := by
  rw [applyActionsChain] at hok
  simp only [fragmentApplyActions_self a resp true h, Bool.true_and] at hok
  cases hsub : applyActionsChain frames tree (prependAddressToActions resp a)
      false with
  | error e => rw [hsub] at hok; simp [Except.map] at hok
  | ok p =>
    obtain ⟨t0, ns0⟩ := p
    rw [hsub] at hok
    simp [Except.map] at hok
    have hns0 : ns0 = [] :=
      applyActionsChain_self_silent frames tree (prependAddressToActions resp a)
        ((prependAddressToActions_target resp a).trans h) t0 ns0 hsub
    rw [← hok.2, hns0]
    rfl

/-- C10 witness: a fragment at `[0]` over the root tree `[cP]` receiving
a self-targeted update notifies exactly its own subscribers (depth 0). -/
theorem c10_witness :
    (Target.self = Target.self) ∧ ([0] : List Nat) = [0] :=
  ⟨rfl, c10_only_origin_notified [0] [] [cP]
    { actions := [Action.update [0] [("x", Val.vNat 1)]]
      target := Target.self }
    [RouteLitComponent.mk "p" "fragment" []
      (some [RouteLitComponent.mk "a" "button" [("x", Val.vNat 1)] none])]
    [0] rfl rfl⟩

/-- C3: a fragment manager's `applyActions` called with notification
enabled notifies the fragment's own subscribers, after the delegation to
the parent, exactly when the response's target is not `app`: for an
app-targeted response depth 0 is never notified, otherwise depth 0 is
notified last. -/
theorem c3_fragment_self_notification (a : List Nat)
    (frames : List (List Nat)) (tree : List RouteLitComponent)
    (resp : ActionsResponse) (tree' : List RouteLitComponent) (ns : List Nat)
    (hok : applyActionsChain (a :: frames) tree resp true = .ok (tree', ns)) :
    (resp.target = Target.app → 0 ∉ ns) ∧
    (resp.target ≠ Target.app → ns.getLast? = some 0) := by
  rw [applyActionsChain] at hok
  constructor
  · intro happ
    simp only [fragmentApplyActions_app a resp true happ] at hok
    cases hsub : applyActionsChain frames tree resp true with
    | error e => rw [hsub] at hok; simp [Except.map] at hok
    | ok p =>
      obtain ⟨t0, ns0⟩ := p
      rw [hsub] at hok
      simp [Except.map] at hok
      rw [← hok.2]
      simp
  · intro hne
    have hself : resp.target = Target.self := by
      cases htgt : resp.target with
      | self => rfl
      | app => exact absurd htgt hne
    simp only [fragmentApplyActions_self a resp true hself,
      Bool.true_and] at hok
    cases hsub : applyActionsChain frames tree (prependAddressToActions resp a)
        false with
    | error e => rw [hsub] at hok; simp [Except.map] at hok
    | ok p =>
      obtain ⟨t0, ns0⟩ := p
      rw [hsub] at hok
      simp [Except.map] at hok
      rw [← hok.2]
      rw [List.getLast?_concat]

/-- C3 witness: with a self-targeted update the fragment's subscribers
(depth 0) are notified; with the same response app-targeted they are
not (the root, depth 1, is notified instead). -/
theorem c3_witness :
    (Target.self ≠ Target.app) ∧
    ([0] : List Nat).getLast? = some 0 ∧
    (Target.app = Target.app) ∧ 0 ∉ ([1] : List Nat) := by
  have hself := c3_fragment_self_notification [0] [] [cP]
    { actions := [Action.update [0] [("x", Val.vNat 1)]]
      target := Target.self }
    [RouteLitComponent.mk "p" "fragment" []
      (some [RouteLitComponent.mk "a" "button" [("x", Val.vNat 1)] none])]
    [0] rfl
  have happ := c3_fragment_self_notification [0] [] [cP]
    { actions := [Action.update [0] [("x", Val.vNat 1)]]
      target := Target.app }
    [RouteLitComponent.mk "p" "fragment" [("x", Val.vNat 1)] (some [cA])]
    [1] rfl
  exact ⟨by decide, hself.2 (by decide), rfl, happ.1 rfl⟩

/-- A reduce that has already produced `undefined` throws on its next
step; it only survives when no step remains. -/
theorem foldlM_jsStep_undef (addr : List Nat) :
    addr.foldlM jsStep Cursor.undef
      = if addr.isEmpty then Except.ok Cursor.undef
        else Except.error JsError.typeError := by
  cases addr with
  | nil => rfl
  | cons i rest => rfl

/-- The step of `getAtAddress` on a list cursor whose index is in range. -/
theorem jsStep_list_some (cs : List RouteLitComponent) (i : Nat)
    (c : RouteLitComponent) (h : cs[i]? = some c) :
    jsStep (Cursor.list cs) i = Except.ok (Cursor.node c) := by
  simp only [jsStep, h]

/-- The step of `getAtAddress` on a list cursor whose index is out of
range: JavaScript indexing yields `undefined`. -/
theorem jsStep_list_none (cs : List RouteLitComponent) (i : Nat)
    (h : cs[i]? = none) :
    jsStep (Cursor.list cs) i = Except.ok Cursor.undef := by
  simp only [jsStep, h]

/-- The step of `getAtAddress` on a node with children and an in-range
index. -/
theorem jsStep_node_some (c : RouteLitComponent)
    (cs : List RouteLitComponent) (i : Nat) (c2 : RouteLitComponent)
    (hch : c.children = some cs) (h : cs[i]? = some c2) :
    jsStep (Cursor.node c) i = Except.ok (Cursor.node c2) := by
  simp only [jsStep, hch, h]

/-- The step of `getAtAddress` on a node with children and an
out-of-range index. -/
theorem jsStep_node_undef (c : RouteLitComponent)
    (cs : List RouteLitComponent) (i : Nat)
    (hch : c.children = some cs) (h : cs[i]? = none) :
    jsStep (Cursor.node c) i = Except.ok Cursor.undef := by
  simp only [jsStep, hch, h]

/-- The step of `getAtAddress` on a leaf node: indexing into the absent
children array throws. -/
theorem jsStep_node_leaf (c : RouteLitComponent) (i : Nat)
    (hch : c.children = none) :
    jsStep (Cursor.node c) i = Except.error JsError.typeError := by
  simp only [jsStep, hch]

/-- When the specification's resolution succeeds, the `reduce` of
`getAtAddress` reaches the corresponding cursor. -/
theorem jsReduce_of_specResolve_some (addr : List Nat) (r r' : SpecRes)
    (h : specResolve r addr = some r') :
    addr.foldlM jsStep (toCursor r) = Except.ok (toCursor r') := by
  induction addr generalizing r with
  | nil =>
    rw [specResolve] at h
    cases h
    rfl
  | cons i rest ih =>
    rw [List.foldlM_cons]
    cases r with
    | list cs =>
      rw [specResolve] at h
      cases hget : cs[i]? with
      | none => simp only [hget] at h; exact Option.noConfusion h
      | some c =>
        simp only [hget] at h
        rw [show toCursor (SpecRes.list cs) = Cursor.list cs from rfl,
          jsStep_list_some cs i c hget]
        exact ih (.node c) h
    | node c =>
      rw [specResolve] at h
      cases hch : c.children with
      | none => simp only [hch] at h; exact Option.noConfusion h
      | some cs =>
        simp only [hch] at h
        cases hget : cs[i]? with
        | none => simp only [hget] at h; exact Option.noConfusion h
        | some c2 =>
          simp only [hget] at h
          rw [show toCursor (SpecRes.node c) = Cursor.node c from rfl,
            jsStep_node_some c cs i c2 hch hget]
          exact ih (.node c2) h

/-- When the specification's resolution would produce an undefined node,
the `reduce` of `getAtAddress` either throws a `TypeError` or ends on
`undefined`. -/
theorem jsReduce_of_specResolve_none (addr : List Nat) (r : SpecRes)
    (h : specResolve r addr = none) :
    addr.foldlM jsStep (toCursor r) = Except.error JsError.typeError ∨
    addr.foldlM jsStep (toCursor r) = Except.ok Cursor.undef := by
  induction addr generalizing r with
  | nil => rw [specResolve] at h; cases h
  | cons i rest ih =>
    rw [List.foldlM_cons]
    cases r with
    | list cs =>
      rw [specResolve] at h
      cases hget : cs[i]? with
      | none =>
        rw [show toCursor (SpecRes.list cs) = Cursor.list cs from rfl,
          jsStep_list_none cs i hget]
        show _ ∨ rest.foldlM jsStep Cursor.undef = _
        rw [foldlM_jsStep_undef]
        cases rest with
        | nil => right; rfl
        | cons j t => left; rfl
      | some c =>
        simp only [hget] at h
        rw [show toCursor (SpecRes.list cs) = Cursor.list cs from rfl,
          jsStep_list_some cs i c hget]
        exact ih (.node c) h
    | node c =>
      rw [specResolve] at h
      cases hch : c.children with
      | none =>
        left
        rw [show toCursor (SpecRes.node c) = Cursor.node c from rfl,
          jsStep_node_leaf c i hch]
        rfl
      | some cs =>
        simp only [hch] at h
        cases hget : cs[i]? with
        | none =>
          rw [show toCursor (SpecRes.node c) = Cursor.node c from rfl,
            jsStep_node_undef c cs i hch hget]
          show _ ∨ rest.foldlM jsStep Cursor.undef = _
          rw [foldlM_jsStep_undef]
          cases rest with
          | nil => right; rfl
          | cons j t => left; rfl
        | some c2 =>
          simp only [hget] at h
          rw [show toCursor (SpecRes.node c) = Cursor.node c from rfl,
            jsStep_node_some c cs i c2 hch hget]
          exact ih (.node c2) h

/-- C7: `getAtAddress` resolves by alternating between indexing into the
current node list and indexing into the children of the node just
selected (the scheme `specResolve` transcribes from the spec), and it
succeeds exactly when that resolution never produces an undefined node:
whenever a step indexes past the end of a list or goes through an absent
children array, `getAtAddress` throws instead of returning a node. -/
theorem c7_getAtAddress_throws (tree : List RouteLitComponent)
    (addr : List Nat) :
    exceptOk (getAtAddress tree addr)
      = (specResolve (SpecRes.list tree) addr).isSome := by
  cases hs : specResolve (.list tree) addr with
  | some r' =>
    have hb := jsReduce_of_specResolve_some addr (.list tree) r' hs
    rw [getAtAddress]
    show exceptOk (addr.foldlM jsStep (Cursor.list tree) >>= _) = _
    rw [show Cursor.list tree = toCursor (.list tree) from rfl, hb]
    cases r' with
    | list cs => rfl
    | node c => rfl
  | none =>
    have ha := jsReduce_of_specResolve_none addr (.list tree) hs
    rw [getAtAddress]
    show exceptOk (addr.foldlM jsStep (Cursor.list tree) >>= _) = _
    rw [show Cursor.list tree = toCursor (.list tree) from rfl]
    cases ha with
    | inl he => rw [he]; rfl
    | inr hu => rw [hu]; rfl

end RouteLit
